import Mathlib

/-!
Formal model of the window-state tracking and restoration engine of
`transparent-windows` (`src/py.py`), as a shallow embedding.

Modelling conventions:
* `modified_windows` (a Python dict keyed by hwnd, insertion-ordered with
  unique keys) is embedded as an association list `List (Nat × WinRecord)`;
  dict assignment of a fresh key appends, assignment of an existing key
  updates in place, `del` removes the key.
* The OS side that the engine reads and writes is embedded as three fields of
  `EngineState`: `exStyle` (per-hwnd extended style bits, read by
  `GetWindowLongPtr` and written by `SetWindowLongPtr`), `osAlpha` (the alpha
  last applied through `SetLayeredWindowAttributes`), and `topmost` (the
  z-order flag driven by `SetWindowPos`).
* The one OS result the code inspects is the return value of
  `SetLayeredWindowAttributes` inside `set_window_alpha`; it is modelled by
  the Boolean parameter `slwaOk` (the `try/except` around the call yields
  `res = 0` on failure, and on failure the OS alpha is unchanged).  The
  `SetWindowPos` call of `set_window_alpha` sits in a `try/except` whose
  branches store `is_topmost = True/False`; the parameter `swpOk` selects the
  branch.  All other OS calls have their results ignored or swallowed by
  `try/except: pass` and are modelled as taking effect.
-/

namespace TransparentWindows

def WS_EX_LAYERED : Nat := 0x00080000

def WS_EX_TRANSPARENT : Nat := 0x00000020

/-- One entry of `modified_windows`:
`{"orig_ex": …, "alpha": …, "passthrough": …, "is_topmost": …, "passthrough_locked": …}`. -/
structure WinRecord where
  orig_ex : Nat
  alpha : Nat
  passthrough : Bool
  is_topmost : Bool
  passthrough_locked : Bool
deriving DecidableEq, Repr

/-- The engine state: the `modified_windows` store plus the modelled OS side. -/
structure EngineState where
  windows : List (Nat × WinRecord)
  exStyle : Nat → Nat
  osAlpha : Nat → Nat
  topmost : Nat → Bool

/-- Dict lookup `modified_windows.get(hwnd)` (first matching key). -/
def lookupRec : List (Nat × WinRecord) → Nat → Option WinRecord
  | [], _ => none
  | (k, v) :: t, h => if k = h then some v else lookupRec t h

/-- Dict update of an existing key: rewrite the entry at key `h` in place. -/
def updateRec : List (Nat × WinRecord) → Nat → (WinRecord → WinRecord) →
    List (Nat × WinRecord)
  | [], _, _ => []
  | (k, v) :: t, h, f =>
    if k = h then (k, f v) :: updateRec t h f else (k, v) :: updateRec t h f

/-- `del modified_windows[hwnd]`. -/
def eraseRec : List (Nat × WinRecord) → Nat → List (Nat × WinRecord)
  | [], _ => []
  | (k, v) :: t, h => if k = h then eraseRec t h else (k, v) :: eraseRec t h

/-- `SetWindowLongPtr(hwnd, GWL_EXSTYLE, v)`. -/
def setEx (st : EngineState) (h v : Nat) : EngineState :=
  { st with exStyle := fun x => if x = h then v else st.exStyle x }

/-- `SetLayeredWindowAttributes(hwnd, 0, a, LWA_ALPHA)` taking effect. -/
def setOsAlpha (st : EngineState) (h a : Nat) : EngineState :=
  { st with osAlpha := fun x => if x = h then a else st.osAlpha x }

/-- `SetWindowPos(hwnd, HWND_TOPMOST / HWND_NOTOPMOST, …)` taking effect. -/
def setTop (st : EngineState) (h : Nat) (b : Bool) : EngineState :=
  { st with topmost := fun x => if x = h then b else st.topmost x }

/-- The fresh record both `set_window_alpha` and `set_passthrough_for_hwnd`
create on first contact:
`{"orig_ex": safe_GetWindowLongPtr(hwnd, GWL_EXSTYLE), "alpha": 255,
  "passthrough": False, "is_topmost": False, "passthrough_locked": False}`. -/
def default_entry (st : EngineState) (h : Nat) : WinRecord :=
  { orig_ex := st.exStyle h
    alpha := 255
    passthrough := false
    is_topmost := false
    passthrough_locked := false }

/-- The shared `if hwnd_int not in modified_windows: … create entry …` snippet
(lines 165-170 and 203-208 of `src/py.py`). -/
def ensureEntry (st : EngineState) (h : Nat) : EngineState :=
  match lookupRec st.windows h with
  | some _ => st
  | none => { st with windows := st.windows ++ [(h, default_entry st h)] }

/-- `int(max(0, min(100, int(alpha_0_100))) * 255 / 100)`: clamp a percentage
into `[0, 100]` and scale to the `0..255` byte domain with truncation. -/
def clampByte (p : Int) : Nat := ((max 0 (min 100 p)).toNat * 255) / 100

/-- `set_window_alpha(hwnd_int, alpha_0_100)` (lines 159-194).
`slwaOk` is the truthiness of the `SetLayeredWindowAttributes` result,
`swpOk` is whether the `SetWindowPos` call raised (`false`) or not. -/
def set_window_alpha (st : EngineState) (hwnd : Nat) (p : Int)
    (slwaOk swpOk : Bool) : EngineState × Bool :=
  if hwnd = 0 then (st, false) else
  let st1 := ensureEntry st hwnd
  let cur_ex := st1.exStyle hwnd
  let st2 := if cur_ex &&& WS_EX_LAYERED = 0 then setEx st1 hwnd (cur_ex ||| WS_EX_LAYERED)
             else st1
  let a_byte := clampByte p
  let st3 := if slwaOk then setOsAlpha st2 hwnd a_byte else st2
  let st4 := { st3 with windows := updateRec st3.windows hwnd fun r => { r with alpha := a_byte } }
  let st5 := if swpOk then setTop st4 hwnd true else st4
  let st6 := { st5 with windows := updateRec st5.windows hwnd fun r => { r with is_topmost := swpOk } }
  (st6, slwaOk)

/-- `set_passthrough_for_hwnd(hwnd_int, enable, mark_locked)` (lines 196-250).
`Nat.ldiff cur_ex WS_EX_TRANSPARENT` is `cur_ex & (~WS_EX_TRANSPARENT)`. -/
def set_passthrough_for_hwnd (st : EngineState) (hwnd : Nat)
    (enable mark_locked : Bool) : EngineState × Bool :=
  let st1 := ensureEntry st hwnd
  let cur_ex := st1.exStyle hwnd
  if enable then
    if cur_ex &&& WS_EX_TRANSPARENT ≠ 0 then
      -- already enabled; still mark flags
      let st2 := { st1 with windows := updateRec st1.windows hwnd fun r =>
        { r with passthrough := true
                 passthrough_locked := if mark_locked then true else r.passthrough_locked } }
      (st2, true)
    else
      let st2 := setEx st1 hwnd (cur_ex ||| WS_EX_TRANSPARENT)
      let st3 := { st2 with windows := updateRec st2.windows hwnd fun r =>
        { r with passthrough := true
                 passthrough_locked := if mark_locked then true else r.passthrough_locked } }
      -- Reapply layered alpha in case changing styles nuked it
      let st4 := match lookupRec st3.windows hwnd with
        | some info => setOsAlpha st3 hwnd info.alpha
        | none => st3
      (st4, true)
  else
    if cur_ex &&& WS_EX_TRANSPARENT = 0 then
      -- already disabled
      let st2 := { st1 with windows := updateRec st1.windows hwnd fun r =>
        { r with passthrough := false, passthrough_locked := false } }
      (st2, true)
    else
      let st2 := setEx st1 hwnd (Nat.ldiff cur_ex WS_EX_TRANSPARENT)
      let st3 := { st2 with windows := updateRec st2.windows hwnd fun r =>
        { r with passthrough := false, passthrough_locked := false } }
      -- Reapply layered alpha
      let st4 := match lookupRec st3.windows hwnd with
        | some info => setOsAlpha st3 hwnd info.alpha
        | none => st3
      (st4, true)

/-- `remove_topmost(hwnd_int)` (lines 252-259). -/
def remove_topmost (st : EngineState) (hwnd : Nat) : EngineState × Bool :=
  (setTop st hwnd false, true)

/-- `restore_window(hwnd_int)` (lines 261-278). -/
def restore_window (st : EngineState) (hwnd : Nat) : EngineState :=
  match lookupRec st.windows hwnd with
  | none => st
  | some info =>
    let st1 := setOsAlpha st hwnd 255
    let st2 := setEx st1 hwnd info.orig_ex
    let st3 := (remove_topmost st2 hwnd).1
    { st3 with windows := eraseRec st3.windows hwnd }

/-- `restore_all()` (lines 280-286): restore every tracked handle, iterating
over a snapshot of the keys. -/
def restore_all (st : EngineState) : EngineState :=
  (st.windows.map Prod.fst).foldl restore_window st

/-- Body of the per-window loop in `App._poll_inputs` on a CTRL edge:
skip records whose snapshot has `passthrough_locked`, else toggle. -/
def ctrlStep (enable : Bool) (acc : EngineState) (p : Nat × WinRecord) : EngineState :=
  if p.2.passthrough_locked then acc
  else (set_passthrough_for_hwnd acc p.1 enable false).1

/-- The `for hwnd, info in list(modified_windows.items())` loop of
`App._poll_inputs`, over a snapshot of the store. -/
def ctrlApplyAll (st : EngineState) (enable : Bool) : EngineState :=
  st.windows.foldl (ctrlStep enable) st

/-- The CTRL (modifier key) section of `App._poll_inputs` (lines 527-569):
on an edge of the held state, enable or disable transient passthrough on
every tracked window that is not locked. -/
def pollCtrl (st : EngineState) (ctrl_held pressed : Bool) : EngineState :=
  if pressed != ctrl_held then
    if pressed then ctrlApplyAll st true else ctrlApplyAll st false
  else st

/-- `App._toggle_backtick_for_selected` (lines 571-596), with the selected
hwnd already resolved and `ctrl_held` the App's current modifier state. -/
def toggleBacktick (st : EngineState) (ctrl_held : Bool) (hwnd : Nat) : EngineState :=
  match lookupRec st.windows hwnd with
  | some info =>
    if info.passthrough_locked then
      -- currently locked -> unlock; fall back to the current CTRL state
      (set_passthrough_for_hwnd st hwnd ctrl_held false).1
    else
      (set_passthrough_for_hwnd st hwnd true true).1
  | none => (set_passthrough_for_hwnd st hwnd true true).1

/-! ### Window enumerator (`enum_top_level_windows`, lines 103-139) -/

/-- The OS-supplied data about one window handed to the `EnumWindows`
callback.  `ancRes` is the `GetAncestor(hwnd, GA_ROOT)` result (`none` means
the call raised, `some 0` a NULL result); `selfId` is `hwnd_to_int(hwnd)`;
`title`/`cls` are what `GetWindowText`/`GetClassName` return for the resolved
handle; `procRaises` models an exception escaping to the callback's outer
`try/except: pass`. -/
structure OsWin where
  visible : Bool
  ancRes : Option Nat
  selfId : Nat
  title : String
  cls : String
  procRaises : Bool
deriving DecidableEq, Repr

/-- The `GetAncestor` fallback: use the root ancestor when truthy, else the
window itself. -/
def resolvedId (w : OsWin) : Nat :=
  match w.ancRes with
  | some t => if t ≠ 0 then t else w.selfId
  | none => w.selfId

/-- What one invocation of `_enum_proc` appends to `windows`: nothing when
the window is invisible, resolves to id 0, or raises; else one triple. -/
def enumProcOne (w : OsWin) : List (Nat × String × String) :=
  if w.procRaises then []
  else if w.visible = false then []
  else if resolvedId w = 0 then []
  else [(resolvedId w, w.title.trim, w.cls)]

/-- The `seen`-set deduplication loop: keep the first occurrence of each id. -/
def dedupByHandle : List (Nat × String × String) → List Nat → List (Nat × String × String)
  | [], _ => []
  | x :: xs, seen =>
    if x.1 ∈ seen then dedupByHandle xs seen else x :: dedupByHandle xs (x.1 :: seen)

/-- `enum_top_level_windows()`: `osEnum = none` models the `EnumWindows` OS
call itself failing, in which case the callback never runs and the collected
list is empty. -/
def enum_top_level_windows (osEnum : Option (List OsWin)) :
    List (Nat × String × String) :=
  match osEnum with
  | none => dedupByHandle [] []
  | some ws => dedupByHandle (ws.map enumProcOne).flatten []

/-! ### Engine operations as a small language (for sequence claims) -/

/-- One engine call: `set_window_alpha`, `set_passthrough_for_hwnd`, or
`restore_window`, with its handle and the modelled OS outcomes. -/
inductive GOp where
  | gSetOpacity (h : Nat) (p : Int) (slwaOk swpOk : Bool)
  | gSetClickThrough (h : Nat) (enable lock : Bool)
  | gRestore (h : Nat)
deriving DecidableEq, Repr

def GOp.target : GOp → Nat
  | gSetOpacity h _ _ _ => h
  | gSetClickThrough h _ _ => h
  | gRestore h => h

def GOp.isModify : GOp → Bool
  | gSetOpacity _ _ _ _ => true
  | gSetClickThrough _ _ _ => true
  | gRestore _ => false

def gstep (st : EngineState) : GOp → EngineState
  | .gSetOpacity h p o1 o2 => (set_window_alpha st h p o1 o2).1
  | .gSetClickThrough h e l => (set_passthrough_for_hwnd st h e l).1
  | .gRestore h => restore_window st h

def runG (st : EngineState) (ops : List GOp) : EngineState := ops.foldl gstep st

/-! ### Invariants and side conditions -/

/-- Per-record invariant: `passthrough_locked` is never set while
`passthrough` is clear. -/
def RecLockImpliesPass (r : WinRecord) : Prop :=
  r.passthrough_locked = true → r.passthrough = true

/-- The invariant over the whole `modified_windows` store. -/
def StoreInv (m : List (Nat × WinRecord)) : Prop :=
  ∀ p ∈ m, RecLockImpliesPass p.2

/-- The keys of the store are pairwise distinct (a Python dict guarantee). -/
def KeysNodup (m : List (Nat × WinRecord)) : Prop := (m.map Prod.fst).Nodup

/-! ### Concrete states used by witnesses and counterexamples -/

/-- The engine's start state: nothing tracked, all style bits clear. -/
def st0 : EngineState := ⟨[], fun _ => 0, fun _ => 0, fun _ => false⟩

/-- A record for a window whose passthrough is locked on. -/
def lockedRec : WinRecord :=
  { orig_ex := 0, alpha := 200, passthrough := true, is_topmost := false
    passthrough_locked := true }

/-- A record for a tracked window with no passthrough. -/
def plainRec : WinRecord :=
  { orig_ex := 0, alpha := 120, passthrough := false, is_topmost := false
    passthrough_locked := false }

/-- A state with a locked window 5 (its transparent bit set) and a plain
tracked window 6. -/
def stLocked : EngineState :=
  { windows := [(5, lockedRec), (6, plainRec)]
    exStyle := fun x => if x = 5 then WS_EX_TRANSPARENT else 0
    osAlpha := fun _ => 200
    topmost := fun _ => false }

/-- A visible window for the enumerator witnesses. -/
def osWinA : OsWin :=
  { visible := true, ancRes := some 0, selfId := 4, title := " Alpha "
    cls := "CA", procRaises := false }

/-- A window on which the enumeration callback raises. -/
def osWinBad : OsWin :=
  { visible := true, ancRes := some 9, selfId := 9, title := "Bad"
    cls := "CB", procRaises := true }

/-! ### Association-list lemmas -/

theorem lookupRec_updateRec_self (m : List (Nat × WinRecord)) (h : Nat)
    (f : WinRecord → WinRecord) :
    lookupRec (updateRec m h f) h = (lookupRec m h).map f := by
  induction m with
  | nil => rfl
  | cons p t ih =>
    obtain ⟨k, v⟩ := p
    by_cases hk : k = h
    · simp [updateRec, lookupRec, hk]
    · simp [updateRec, lookupRec, hk, ih]

theorem lookupRec_updateRec_ne (m : List (Nat × WinRecord)) (g h : Nat)
    (f : WinRecord → WinRecord) (hne : g ≠ h) :
    lookupRec (updateRec m h f) g = lookupRec m g := by
  induction m with
  | nil => rfl
  | cons p t ih =>
    obtain ⟨k, v⟩ := p
    by_cases hk : k = h
    · subst hk
      simp [updateRec, lookupRec, Ne.symm hne, ih]
    · by_cases hg : k = g
      · subst hg
        simp [updateRec, lookupRec, hne]
      · simp [updateRec, lookupRec, hk, hg, ih]

theorem lookupRec_append_single_self (m : List (Nat × WinRecord)) (h : Nat)
    (r : WinRecord) (hm : lookupRec m h = none) :
    lookupRec (m ++ [(h, r)]) h = some r := by
  induction m with
  | nil => simp [lookupRec]
  | cons p t ih =>
    obtain ⟨k, v⟩ := p
    by_cases hk : k = h
    · simp [lookupRec, hk] at hm
    · simp only [lookupRec, hk] at hm
      simpa [lookupRec, hk] using ih hm

theorem lookupRec_append_single_ne (m : List (Nat × WinRecord)) (g h : Nat)
    (r : WinRecord) (hne : g ≠ h) :
    lookupRec (m ++ [(h, r)]) g = lookupRec m g := by
  induction m with
  | nil => simp [lookupRec, Ne.symm hne]
  | cons p t ih =>
    obtain ⟨k, v⟩ := p
    by_cases hg : k = g
    · simp [lookupRec, hg]
    · simp [lookupRec, hg, ih]

theorem lookupRec_eraseRec_self (m : List (Nat × WinRecord)) (h : Nat) :
    lookupRec (eraseRec m h) h = none := by
  induction m with
  | nil => rfl
  | cons p t ih =>
    obtain ⟨k, v⟩ := p
    by_cases hk : k = h
    · simpa [eraseRec, lookupRec, hk] using ih
    · simpa [eraseRec, lookupRec, hk] using ih

/-! ### Projection lemmas for the state helpers -/

theorem windows_setEx (st : EngineState) (h v : Nat) :
    (setEx st h v).windows = st.windows := rfl

theorem windows_setOsAlpha (st : EngineState) (h a : Nat) :
    (setOsAlpha st h a).windows = st.windows := rfl

theorem windows_setTop (st : EngineState) (h : Nat) (b : Bool) :
    (setTop st h b).windows = st.windows := rfl

theorem exStyle_setOsAlpha (st : EngineState) (h a : Nat) :
    (setOsAlpha st h a).exStyle = st.exStyle := rfl

theorem exStyle_setTop (st : EngineState) (h : Nat) (b : Bool) :
    (setTop st h b).exStyle = st.exStyle := rfl

theorem exStyle_setEx_self (st : EngineState) (h v : Nat) :
    (setEx st h v).exStyle h = v := by simp [setEx]

theorem exStyle_setEx_ne (st : EngineState) (g h v : Nat) (hne : g ≠ h) :
    (setEx st h v).exStyle g = st.exStyle g := by simp [setEx, hne]

theorem osAlpha_setEx (st : EngineState) (h v : Nat) :
    (setEx st h v).osAlpha = st.osAlpha := rfl

theorem osAlpha_setTop (st : EngineState) (h : Nat) (b : Bool) :
    (setTop st h b).osAlpha = st.osAlpha := rfl

theorem osAlpha_setOsAlpha_self (st : EngineState) (h a : Nat) :
    (setOsAlpha st h a).osAlpha h = a := by simp [setOsAlpha]

theorem osAlpha_setOsAlpha_ne (st : EngineState) (g h a : Nat) (hne : g ≠ h) :
    (setOsAlpha st h a).osAlpha g = st.osAlpha g := by simp [setOsAlpha, hne]

/-! ### `ensureEntry` lemmas -/

theorem ensureEntry_exStyle (st : EngineState) (h : Nat) :
    (ensureEntry st h).exStyle = st.exStyle := by
  unfold ensureEntry
  cases lookupRec st.windows h <;> rfl

theorem ensureEntry_osAlpha (st : EngineState) (h : Nat) :
    (ensureEntry st h).osAlpha = st.osAlpha := by
  unfold ensureEntry
  cases lookupRec st.windows h <;> rfl

theorem ensureEntry_lookup (st : EngineState) (h : Nat) :
    lookupRec (ensureEntry st h).windows h =
      some ((lookupRec st.windows h).getD (default_entry st h)) := by
  unfold ensureEntry
  cases hl : lookupRec st.windows h with
  | none => simpa using lookupRec_append_single_self st.windows h (default_entry st h) hl
  | some r => simp [hl]

theorem ensureEntry_lookup_ne (st : EngineState) (g h : Nat) (hne : g ≠ h) :
    lookupRec (ensureEntry st h).windows g = lookupRec st.windows g := by
  unfold ensureEntry
  cases hl : lookupRec st.windows h with
  | none => simpa using lookupRec_append_single_ne st.windows g h (default_entry st h) hne
  | some r => rfl

/-- The alpha-reapply step of `set_passthrough_for_hwnd` does not touch the
record store. -/
theorem windows_reapply (st : EngineState) (h : Nat) (o : Option WinRecord) :
    (match o with
     | some info => setOsAlpha st h info.alpha
     | none => st).windows = st.windows := by
  cases o <;> rfl

theorem exStyle_reapply (st : EngineState) (h : Nat) (o : Option WinRecord) :
    (match o with
     | some info => setOsAlpha st h info.alpha
     | none => st).exStyle = st.exStyle := by
  cases o <;> rfl

/-! ### Shape of the record store after each operation -/

/-- For a nonzero handle, `set_window_alpha` first ensures an entry, then
overwrites its `alpha` with the clamped byte and its `is_topmost` with the
`SetWindowPos` outcome. -/
theorem swa_windows (st : EngineState) (h : Nat) (p : Int) (o1 o2 : Bool)
    (h0 : h ≠ 0) :
    (set_window_alpha st h p o1 o2).1.windows =
      updateRec
        (updateRec (ensureEntry st h).windows h fun r => { r with alpha := clampByte p })
        h (fun r => { r with is_topmost := o2 }) := by
  simp only [set_window_alpha, h0, if_false, ite_false, reduceIte]
  split <;> split <;>
    simp [windows_setEx, windows_setOsAlpha, windows_setTop,
      apply_ite EngineState.windows]

/-- `set_window_alpha` is the identity on the store at handle 0. -/
theorem swa_windows_zero (st : EngineState) (p : Int) (o1 o2 : Bool) :
    (set_window_alpha st 0 p o1 o2).1.windows = st.windows := by
  simp [set_window_alpha]

/-- `set_window_alpha` returns the truthiness of the
`SetLayeredWindowAttributes` result for a nonzero handle. -/
theorem swa_snd (st : EngineState) (h : Nat) (p : Int) (o1 o2 : Bool)
    (h0 : h ≠ 0) :
    (set_window_alpha st h p o1 o2).2 = o1 := by
  simp only [set_window_alpha, h0, if_false, ite_false, reduceIte]

/-- `set_passthrough_for_hwnd` ensures an entry, then rewrites its flags:
`passthrough := enable`; `passthrough_locked` is set when enabling with
`mark_locked`, kept when enabling without it, and cleared when disabling. -/
theorem spt_windows (st : EngineState) (h : Nat) (e l : Bool) :
    (set_passthrough_for_hwnd st h e l).1.windows =
      updateRec (ensureEntry st h).windows h (fun r =>
        if e then
          { r with passthrough := true
                   passthrough_locked := if l then true else r.passthrough_locked }
        else { r with passthrough := false, passthrough_locked := false }) := by
  cases e <;>
  · simp only [set_passthrough_for_hwnd]
    split <;>
      simp [windows_setEx, windows_reapply, apply_ite EngineState.windows,
        apply_ite Prod.fst]

/-- Record seen at `h` after `set_window_alpha` on a nonzero `h`: the old
record (or the fresh default) with `alpha` and `is_topmost` overwritten. -/
theorem swa_lookup_self (st : EngineState) (h : Nat) (p : Int) (o1 o2 : Bool)
    (h0 : h ≠ 0) :
    lookupRec (set_window_alpha st h p o1 o2).1.windows h =
      some { (lookupRec st.windows h).getD (default_entry st h) with
             alpha := clampByte p, is_topmost := o2 } := by
  rw [swa_windows st h p o1 o2 h0, lookupRec_updateRec_self,
    lookupRec_updateRec_self, ensureEntry_lookup]
  rfl

/-- Record seen at `h` after `set_passthrough_for_hwnd`. -/
theorem spt_lookup_self (st : EngineState) (h : Nat) (e l : Bool) :
    lookupRec (set_passthrough_for_hwnd st h e l).1.windows h =
      some (if e then
              { (lookupRec st.windows h).getD (default_entry st h) with
                passthrough := true
                passthrough_locked := if l then true else
                  ((lookupRec st.windows h).getD (default_entry st h)).passthrough_locked }
            else
              { (lookupRec st.windows h).getD (default_entry st h) with
                passthrough := false, passthrough_locked := false }) := by
  rw [spt_windows, lookupRec_updateRec_self, ensureEntry_lookup]
  cases e <;> rfl

/-- `set_passthrough_for_hwnd` touches no other handle's record. -/
theorem spt_lookup_ne (st : EngineState) (g h : Nat) (e l : Bool) (hne : g ≠ h) :
    lookupRec (set_passthrough_for_hwnd st h e l).1.windows g =
      lookupRec st.windows g := by
  rw [spt_windows, lookupRec_updateRec_ne _ _ _ _ hne, ensureEntry_lookup_ne st g h hne]

/-- `set_passthrough_for_hwnd` touches no other handle's style bits. -/
theorem spt_exStyle_ne (st : EngineState) (g h : Nat) (e l : Bool) (hne : g ≠ h) :
    (set_passthrough_for_hwnd st h e l).1.exStyle g = st.exStyle g := by
  cases e <;>
  · simp only [set_passthrough_for_hwnd]
    split <;>
      simp [exStyle_reapply, ensureEntry_exStyle, setEx, hne, ite_apply,
        apply_ite EngineState.exStyle, apply_ite Prod.fst]

/-- `set_passthrough_for_hwnd` touches no other handle's applied alpha. -/
theorem spt_osAlpha_ne (st : EngineState) (g h : Nat) (e l : Bool) (hne : g ≠ h) :
    (set_passthrough_for_hwnd st h e l).1.osAlpha g = st.osAlpha g := by
  have key : ∀ (s : EngineState) (o : Option WinRecord),
      (match o with
       | some info => setOsAlpha s h info.alpha
       | none => s).osAlpha g = s.osAlpha g := by
    intro s o
    cases o with
    | none => rfl
    | some info => simp [setOsAlpha, hne]
  cases e <;>
  · simp only [set_passthrough_for_hwnd]
    split <;>
      simp [key, ensureEntry_osAlpha, osAlpha_setEx, hne, ite_apply,
        apply_ite EngineState.osAlpha, apply_ite Prod.fst]

/-- Enabling passthrough on a window whose transparent bit is clear
reapplies the stored alpha of its (possibly fresh) record. -/
theorem spt_osAlpha_enable_clear (st : EngineState) (h : Nat) (l : Bool)
    (hb : st.exStyle h &&& WS_EX_TRANSPARENT = 0) :
    (set_passthrough_for_hwnd st h true l).1.osAlpha h =
      ((lookupRec st.windows h).getD (default_entry st h)).alpha := by
  have hb2 : (ensureEntry st h).exStyle h &&& WS_EX_TRANSPARENT = 0 := by
    rw [ensureEntry_exStyle]; exact hb
  have key : lookupRec (updateRec (ensureEntry st h).windows h (fun r =>
      { orig_ex := r.orig_ex, alpha := r.alpha, passthrough := true
        is_topmost := r.is_topmost
        passthrough_locked := l || r.passthrough_locked })) h =
      some { orig_ex := ((lookupRec st.windows h).getD (default_entry st h)).orig_ex
             alpha := ((lookupRec st.windows h).getD (default_entry st h)).alpha
             passthrough := true
             is_topmost := ((lookupRec st.windows h).getD (default_entry st h)).is_topmost
             passthrough_locked :=
               l || ((lookupRec st.windows h).getD (default_entry st h)).passthrough_locked } := by
    rw [lookupRec_updateRec_self, ensureEntry_lookup]
    rfl
  simp [set_passthrough_for_hwnd, hb2, windows_setEx, key, osAlpha_setOsAlpha_self]

/-- Disabling passthrough on a window whose transparent bit is set
reapplies the stored alpha of its (possibly fresh) record. -/
theorem spt_osAlpha_disable_set (st : EngineState) (h : Nat) (l : Bool)
    (hb : st.exStyle h &&& WS_EX_TRANSPARENT ≠ 0) :
    (set_passthrough_for_hwnd st h false l).1.osAlpha h =
      ((lookupRec st.windows h).getD (default_entry st h)).alpha := by
  have hb2 : (ensureEntry st h).exStyle h &&& WS_EX_TRANSPARENT ≠ 0 := by
    rw [ensureEntry_exStyle]; exact hb
  have key : lookupRec (updateRec (ensureEntry st h).windows h (fun r =>
      { orig_ex := r.orig_ex, alpha := r.alpha, passthrough := false
        is_topmost := r.is_topmost, passthrough_locked := false })) h =
      some { orig_ex := ((lookupRec st.windows h).getD (default_entry st h)).orig_ex
             alpha := ((lookupRec st.windows h).getD (default_entry st h)).alpha
             passthrough := false
             is_topmost := ((lookupRec st.windows h).getD (default_entry st h)).is_topmost
             passthrough_locked := false } := by
    rw [lookupRec_updateRec_self, ensureEntry_lookup]
    rfl
  simp [set_passthrough_for_hwnd, hb2, windows_setEx, key, osAlpha_setOsAlpha_self]

/-! ### `restore_window` lemmas -/

/-- `restore_window` on an untracked handle is the identity (the whole body
is guarded by `if hwnd_int in modified_windows`). -/
theorem restore_window_none (st : EngineState) (h : Nat)
    (hnone : lookupRec st.windows h = none) :
    restore_window st h = st := by
  unfold restore_window
  rw [hnone]

/-- `restore_window` on a tracked handle writes the captured style bits back,
resets the applied alpha to 255, clears topmost, and deletes the record. -/
theorem restore_window_some (st : EngineState) (h : Nat) (r : WinRecord)
    (hr : lookupRec st.windows h = some r) :
    (restore_window st h).exStyle h = r.orig_ex ∧
    (restore_window st h).osAlpha h = 255 ∧
    lookupRec (restore_window st h).windows h = none := by
  unfold restore_window
  rw [hr]
  refine ⟨?_, ?_, ?_⟩
  · simp [remove_topmost, setTop, setEx, setOsAlpha]
  · simp [remove_topmost, setTop, setEx, setOsAlpha]
  · simp [remove_topmost, windows_setTop, windows_setEx, windows_setOsAlpha,
      lookupRec_eraseRec_self]

/-- A modifying call on an already-tracked handle keeps the record present
and leaves `orig_ex` untouched. -/
theorem gstep_orig_some (st : EngineState) (op : GOp) (h : Nat) (r : WinRecord)
    (htar : op.target = h) (hmod : op.isModify = true)
    (hr : lookupRec st.windows h = some r) :
    ∃ s, lookupRec (gstep st op).windows h = some s ∧ s.orig_ex = r.orig_ex := by
  cases op with
  | gSetOpacity g p o1 o2 =>
    simp only [GOp.target] at htar
    subst htar
    by_cases h0 : g = 0
    · subst h0
      exact ⟨r, by simpa [gstep, swa_windows_zero] using hr, rfl⟩
    · refine ⟨_, by simpa [gstep] using swa_lookup_self st g p o1 o2 h0, ?_⟩
      simp [hr]
  | gSetClickThrough g e l =>
    simp only [GOp.target] at htar
    subst htar
    refine ⟨_, by simpa [gstep] using spt_lookup_self st g e l, ?_⟩
    cases e <;> simp [hr]
  | gRestore g =>
    simp [GOp.isModify] at hmod

/-- The first modifying call on an untracked (nonzero) handle creates its
record and captures the current style bits as `orig_ex`. -/
theorem gstep_orig_create (st : EngineState) (op : GOp) (h : Nat)
    (htar : op.target = h) (hmod : op.isModify = true) (h0 : h ≠ 0)
    (hnone : lookupRec st.windows h = none) :
    ∃ s, lookupRec (gstep st op).windows h = some s ∧ s.orig_ex = st.exStyle h := by
  cases op with
  | gSetOpacity g p o1 o2 =>
    simp only [GOp.target] at htar
    subst htar
    refine ⟨_, by simpa [gstep] using swa_lookup_self st g p o1 o2 h0, ?_⟩
    simp [hnone, default_entry]
  | gSetClickThrough g e l =>
    simp only [GOp.target] at htar
    subst htar
    refine ⟨_, by simpa [gstep] using spt_lookup_self st g e l, ?_⟩
    cases e <;> simp [hnone, default_entry]
  | gRestore g =>
    simp [GOp.isModify] at hmod

/-- Along any sequence of modifying calls on one handle, the record stays
present and its `orig_ex` never changes. -/
theorem runG_orig (ops : List GOp) (st : EngineState) (h : Nat) (E : Nat)
    (hall : ∀ o ∈ ops, o.target = h ∧ o.isModify = true)
    (r : WinRecord) (hr : lookupRec st.windows h = some r) (hE : r.orig_ex = E) :
    ∃ s, lookupRec (runG st ops).windows h = some s ∧ s.orig_ex = E := by
  induction ops generalizing st r with
  | nil => exact ⟨r, hr, hE⟩
  | cons o t ih =>
    obtain ⟨htar, hmod⟩ := hall o (List.mem_cons_self o t)
    obtain ⟨s, hs, hse⟩ := gstep_orig_some st o h r htar hmod hr
    exact ih (gstep st o) (fun q hq => hall q (List.mem_cons_of_mem _ hq)) s hs
      (hse.trans hE)

/-! ### The lock-implies-passthrough invariant -/

theorem storeInv_updateRec (m : List (Nat × WinRecord)) (h : Nat)
    (f : WinRecord → WinRecord) (hm : StoreInv m)
    (hf : ∀ r, RecLockImpliesPass r → RecLockImpliesPass (f r)) :
    StoreInv (updateRec m h f) := by
  induction m with
  | nil => intro p hp; cases hp
  | cons q t ih =>
    obtain ⟨k, v⟩ := q
    have hv : RecLockImpliesPass v := hm (k, v) (List.mem_cons_self _ _)
    have ht : StoreInv t := fun p hp => hm p (List.mem_cons_of_mem _ hp)
    intro p hp
    by_cases hk : k = h <;>
    · simp only [updateRec, hk, if_true, if_false, reduceIte] at hp
      rcases List.mem_cons.1 hp with hhead | htail
      · subst hhead
        first
          | exact hf v hv
          | exact hv
      · exact ih ht p htail

theorem storeInv_append_single (m : List (Nat × WinRecord)) (h : Nat)
    (r : WinRecord) (hm : StoreInv m) (hr : RecLockImpliesPass r) :
    StoreInv (m ++ [(h, r)]) := by
  intro p hp
  rcases List.mem_append.1 hp with hin | hin
  · exact hm p hin
  · rcases List.mem_singleton.1 hin with rfl
    exact hr

theorem storeInv_eraseRec (m : List (Nat × WinRecord)) (h : Nat)
    (hm : StoreInv m) : StoreInv (eraseRec m h) := by
  induction m with
  | nil => intro p hp; cases hp
  | cons q t ih =>
    obtain ⟨k, v⟩ := q
    have ht : StoreInv t := fun p hp => hm p (List.mem_cons_of_mem _ hp)
    intro p hp
    by_cases hk : k = h
    · simp only [eraseRec, hk, if_true, reduceIte] at hp
      exact ih ht p hp
    · simp only [eraseRec, hk, if_false, reduceIte] at hp
      rcases List.mem_cons.1 hp with hhead | htail
      · subst hhead
        exact hm (k, v) (List.mem_cons_self _ _)
      · exact ih ht p htail

theorem storeInv_ensureEntry (st : EngineState) (h : Nat)
    (hm : StoreInv st.windows) : StoreInv (ensureEntry st h).windows := by
  unfold ensureEntry
  cases lookupRec st.windows h with
  | some r => exact hm
  | none =>
    exact storeInv_append_single st.windows h (default_entry st h) hm
      (fun hlock => by simp [default_entry] at hlock)

/-- Every engine call preserves the lock-implies-passthrough invariant. -/
theorem gstep_storeInv (st : EngineState) (op : GOp)
    (hm : StoreInv st.windows) : StoreInv (gstep st op).windows := by
  cases op with
  | gSetOpacity g p o1 o2 =>
    by_cases h0 : g = 0
    · subst h0
      show StoreInv (set_window_alpha st 0 p o1 o2).1.windows
      rw [swa_windows_zero]
      exact hm
    · show StoreInv (set_window_alpha st g p o1 o2).1.windows
      rw [swa_windows st g p o1 o2 h0]
      refine storeInv_updateRec _ _ _ (storeInv_updateRec _ _ _
        (storeInv_ensureEntry st g hm) ?_) ?_
      · intro r hr
        exact hr
      · intro r hr
        exact hr
  | gSetClickThrough g e l =>
    show StoreInv (set_passthrough_for_hwnd st g e l).1.windows
    rw [spt_windows]
    refine storeInv_updateRec _ _ _ (storeInv_ensureEntry st g hm) ?_
    intro r hr
    cases e with
    | true => intro hlock; rfl
    | false => intro hlock; simp at hlock
  | gRestore g =>
    show StoreInv (restore_window st g).windows
    unfold restore_window
    cases lookupRec st.windows g with
    | none => exact hm
    | some info =>
      exact storeInv_eraseRec _ _ hm

/-- The invariant is preserved by any sequence of engine calls. -/
theorem runG_storeInv (ops : List GOp) (st : EngineState)
    (hm : StoreInv st.windows) : StoreInv (runG st ops).windows := by
  induction ops generalizing st with
  | nil => exact hm
  | cons o t ih => exact ih (gstep st o) (gstep_storeInv st o hm)

/-! ### The poll loop and locked records -/

/-- With distinct keys, any entry at the looked-up key carries the looked-up
record. -/
theorem lookup_nodup_mem (m : List (Nat × WinRecord)) (h : Nat) (r : WinRecord)
    (hnd : KeysNodup m) (hr : lookupRec m h = some r) :
    ∀ v, (h, v) ∈ m → v = r := by
  induction m with
  | nil => intro v hv; cases hv
  | cons q t ih =>
    obtain ⟨k, w⟩ := q
    have hnd' : KeysNodup t := (List.nodup_cons.1 hnd).2
    have hkt : k ∉ t.map Prod.fst := (List.nodup_cons.1 hnd).1
    intro v hv
    by_cases hk : k = h
    · subst hk
      simp only [lookupRec, if_pos rfl] at hr
      rcases List.mem_cons.1 hv with hhead | htail
      · cases hhead
        injection hr
      · exact absurd (List.mem_map.2 ⟨(k, v), htail, rfl⟩) hkt
    · simp only [lookupRec, hk, if_false, reduceIte] at hr
      rcases List.mem_cons.1 hv with hhead | htail
      · cases hhead
        exact absurd rfl hk
      · exact ih hnd' hr v htail

/-- Folding the CTRL edge handler over a snapshot in which every non-locked
entry has a key other than `h` leaves handle `h`'s record and style bits
untouched. -/
theorem ctrlFold_preserve (e : Bool) (l : List (Nat × WinRecord)) (h : Nat)
    (hl : ∀ p ∈ l, p.2.passthrough_locked = false → p.1 ≠ h) :
    ∀ acc : EngineState,
      lookupRec (l.foldl (ctrlStep e) acc).windows h = lookupRec acc.windows h ∧
      (l.foldl (ctrlStep e) acc).exStyle h = acc.exStyle h := by
  induction l with
  | nil => intro acc; exact ⟨rfl, rfl⟩
  | cons p t ih =>
    intro acc
    have ht : ∀ q ∈ t, q.2.passthrough_locked = false → q.1 ≠ h :=
      fun q hq => hl q (List.mem_cons_of_mem _ hq)
    by_cases hlock : p.2.passthrough_locked = true
    · simp only [List.foldl_cons, ctrlStep, hlock, if_true, reduceIte]
      exact ih ht acc
    · have hne : h ≠ p.1 :=
        Ne.symm (hl p (List.mem_cons_self _ _) (Bool.eq_false_iff.2 hlock))
      simp only [List.foldl_cons, ctrlStep, hlock, if_false, Bool.false_eq_true,
        reduceIte]
      obtain ⟨h1, h2⟩ := ih ht (set_passthrough_for_hwnd acc p.1 e false).1
      exact ⟨h1.trans (spt_lookup_ne acc h p.1 e false hne),
        h2.trans (spt_exStyle_ne acc h p.1 e false hne)⟩

/-- On a CTRL release edge the poll handler runs the disable fold. -/
theorem pollCtrl_release (st : EngineState) :
    pollCtrl st true false = ctrlApplyAll st false := by
  simp [pollCtrl]

/-! ### Claim theorems -/

/-- C1: a CTRL held-to-released transition in the poll loop never touches a
record with `passthrough_locked = true`: the handler invokes
`set_passthrough_for_hwnd(…, enable := false, mark_locked := false)` only on
records whose snapshot has `passthrough_locked = false`, so a locked window's
record (in particular its `passthrough = true` and `passthrough_locked =
true` flags) and its style bits are left exactly as they were: its
click-through stays enabled and locked. -/
theorem claim1_ctrl_release_spares_locked (st : EngineState) (h : Nat)
    (r : WinRecord) (hnd : KeysNodup st.windows)
    (hr : lookupRec st.windows h = some r)
    (hlock : r.passthrough_locked = true) :
    lookupRec (pollCtrl st true false).windows h = some r ∧
    (pollCtrl st true false).exStyle h = st.exStyle h := by
  have hl : ∀ p ∈ st.windows, p.2.passthrough_locked = false → p.1 ≠ h := by
    intro p hp hpl hne
    have hmem : (h, p.2) ∈ st.windows := by
      have hpair : p = (h, p.2) := by
        rw [← hne]
      rwa [hpair] at hp
    have hpr := lookup_nodup_mem st.windows h r hnd hr p.2 hmem
    rw [hpr, hlock] at hpl
    cases hpl
  rw [pollCtrl_release]
  obtain ⟨hcw, hcx⟩ := ctrlFold_preserve false st.windows h hl st
  exact ⟨hcw.trans hr, hcx⟩

/-- Witness for C1 at a concrete state: window 5 is locked, window 6 is
tracked but not locked; the release edge leaves window 5's record intact. -/
theorem claim1_witness :
    lookupRec (pollCtrl stLocked true false).windows 5 = some lockedRec ∧
    (pollCtrl stLocked true false).exStyle 5 = stLocked.exStyle 5 :=
  claim1_ctrl_release_spares_locked stLocked 5 lockedRec
    (by unfold KeysNodup; decide) (by decide) (by decide)

/-- C2: for every integer percent `p`, `set_window_alpha` stores
`clampByte p = floor(clamp(p, 0, 100) * 255 / 100)` in the window's record;
in particular 0 ↦ 0, 50 ↦ 127, 100 ↦ 255.  (Handle 0 is the OS null-handle
sentinel the function rejects.) -/
theorem claim2_setOpacity_stores_clamped_byte (st : EngineState) (h : Nat)
    (p : Int) (o1 o2 : Bool) (h0 : h ≠ 0) :
    (∃ r, lookupRec (set_window_alpha st h p o1 o2).1.windows h = some r ∧
       r.alpha = clampByte p) ∧
    clampByte 0 = 0 ∧ clampByte 50 = 127 ∧ clampByte 100 = 255 :=
  ⟨⟨_, swa_lookup_self st h p o1 o2 h0, rfl⟩, by decide, by decide, by decide⟩

/-- Witness for C2: applying 50 percent to fresh window 1 stores 127. -/
theorem claim2_witness :
    (∃ r, lookupRec (set_window_alpha st0 1 50 true true).1.windows 1 = some r ∧
       r.alpha = clampByte 50) ∧
    clampByte 0 = 0 ∧ clampByte 50 = 127 ∧ clampByte 100 = 255 :=
  claim2_setOpacity_stores_clamped_byte st0 1 50 true true (by decide)

/-- C3: after any nonempty sequence of `set_window_alpha` and
`set_passthrough_for_hwnd` calls on a previously untracked (nonzero) handle,
`restore_window` writes back the style bits captured at the very first
modification (the pre-modification value, never overwritten while the record
exists), resets the applied alpha to the fully opaque 255, and deletes the
record; restoring again, or restoring any handle with no record, is a
no-op. -/
theorem claim3_restore_roundtrip (st : EngineState) (h : Nat) (h0 : h ≠ 0)
    (hnone : lookupRec st.windows h = none) (op : GOp) (ops : List GOp)
    (hall : ∀ o ∈ op :: ops, o.target = h ∧ o.isModify = true) :
    (restore_window (runG st (op :: ops)) h).exStyle h = st.exStyle h ∧
    (restore_window (runG st (op :: ops)) h).osAlpha h = 255 ∧
    lookupRec (restore_window (runG st (op :: ops)) h).windows h = none ∧
    restore_window (restore_window (runG st (op :: ops)) h) h =
      restore_window (runG st (op :: ops)) h ∧
    (∀ s : EngineState, lookupRec s.windows h = none → restore_window s h = s) := by
  obtain ⟨htar, hmod⟩ := hall op (List.mem_cons_self op ops)
  obtain ⟨s1, hs1, he1⟩ := gstep_orig_create st op h htar hmod h0 hnone
  obtain ⟨s2, hs2, he2⟩ := runG_orig ops (gstep st op) h (st.exStyle h)
    (fun q hq => hall q (List.mem_cons_of_mem _ hq)) s1 hs1 he1
  have hrun : runG st (op :: ops) = runG (gstep st op) ops := rfl
  rw [hrun]
  obtain ⟨hx, ha, hw⟩ := restore_window_some (runG (gstep st op) ops) h s2 hs2
  exact ⟨by rw [hx, he2], ha, hw, restore_window_none _ h hw,
    fun s hs => restore_window_none s h hs⟩

/-- Witness for C3: opacity then lock on fresh window 1, then restore. -/
theorem claim3_witness :
    (restore_window (runG st0 [GOp.gSetOpacity 1 50 true true,
        GOp.gSetClickThrough 1 true true]) 1).exStyle 1 = st0.exStyle 1 ∧
    (restore_window (runG st0 [GOp.gSetOpacity 1 50 true true,
        GOp.gSetClickThrough 1 true true]) 1).osAlpha 1 = 255 ∧
    lookupRec (restore_window (runG st0 [GOp.gSetOpacity 1 50 true true,
        GOp.gSetClickThrough 1 true true]) 1).windows 1 = none ∧
    restore_window (restore_window (runG st0 [GOp.gSetOpacity 1 50 true true,
        GOp.gSetClickThrough 1 true true]) 1) 1 =
      restore_window (runG st0 [GOp.gSetOpacity 1 50 true true,
        GOp.gSetClickThrough 1 true true]) 1 := by
  have hfull := claim3_restore_roundtrip st0 1 (by decide) (by decide)
    (GOp.gSetOpacity 1 50 true true) [GOp.gSetClickThrough 1 true true]
    (by decide)
  exact ⟨hfull.1, hfull.2.1, hfull.2.2.1, hfull.2.2.2.1⟩

/-- C4 (code bug, evaluated at the failing input): toggling the backtick key
on locked window 5 while CTRL is held calls
`set_passthrough_for_hwnd(5, enable := true, mark_locked := false)`, which
leaves `passthrough_locked = true`: the record is completely unchanged, so
the window is NOT unlocked, although the claim (and the code's own status
message "Persistent passthrough: OFF") says the lock falls back to the
transient CTRL state. -/
theorem claim4_unlock_with_ctrl_held_keeps_lock :
    lookupRec (toggleBacktick stLocked true 5).windows 5 = some lockedRec ∧
    lockedRec.passthrough_locked = true := by decide

/-- C5: whenever `set_passthrough_for_hwnd` actually changes the transparent
style bit — enabling with the bit clear, or disabling with the bit set — the
applied OS alpha afterwards equals the `alpha` stored in the window's
(possibly freshly created) record: a style mutation never silently loses a
previously applied opacity. -/
theorem claim5_style_change_reasserts_alpha (st : EngineState) (h : Nat)
    (e l : Bool)
    (hchange : (e = true ∧ st.exStyle h &&& WS_EX_TRANSPARENT = 0) ∨
               (e = false ∧ st.exStyle h &&& WS_EX_TRANSPARENT ≠ 0)) :
    (set_passthrough_for_hwnd st h e l).1.osAlpha h =
      ((lookupRec st.windows h).getD (default_entry st h)).alpha := by
  rcases hchange with ⟨he, hb⟩ | ⟨he, hb⟩
  · subst he
    exact spt_osAlpha_enable_clear st h l hb
  · subst he
    exact spt_osAlpha_disable_set st h l hb

/-- Witness for C5: disabling passthrough on window 5 (bit set, stored alpha
200) reapplies 200. -/
theorem claim5_witness :
    (set_passthrough_for_hwnd stLocked 5 false false).1.osAlpha 5 =
      ((lookupRec stLocked.windows 5).getD (default_entry stLocked 5)).alpha :=
  claim5_style_change_reasserts_alpha stLocked 5 false false
    (Or.inr ⟨rfl, by decide⟩)

/-- C6: the lock-implies-passthrough invariant — `passthrough_locked = true`
implies `passthrough = true` for every record — holds after every sequence of
engine operations (`set_window_alpha` with any handle/argument combination,
`set_passthrough_for_hwnd` with any flag combination including record
creation, `restore_window`) from any state satisfying it; no reachable
record has the lock flag set while the click-through flag is clear. -/
theorem claim6_lock_implies_passthrough (st : EngineState) (ops : List GOp)
    (hm : StoreInv st.windows) : StoreInv (runG st ops).windows :=
  runG_storeInv ops st hm

/-- Witness for C6: a concrete run mixing all three operations. -/
theorem claim6_witness :
    StoreInv (runG stLocked [GOp.gSetOpacity 6 30 true true,
      GOp.gSetClickThrough 5 true false, GOp.gSetClickThrough 7 false true,
      GOp.gRestore 6]).windows :=
  claim6_lock_implies_passthrough stLocked _
    (by unfold StoreInv RecLockImpliesPass; decide)

/-- C7 counterexample: `set_passthrough_for_hwnd(5, enable := true,
mark_locked := false)` on locked window 5 does NOT store
`passthrough_locked = false`: the claim that the operation stores exactly
the given lock value fails at this input. -/
theorem claim7_counterexample :
    ¬ ((lookupRec (set_passthrough_for_hwnd stLocked 5 true false).1.windows 5).map
        WinRecord.passthrough_locked = some false) := by decide

/-- C7 (amended): `set_passthrough_for_hwnd` accepts every flag combination
and stores `passthrough := enable` exactly; `passthrough_locked`, however,
is not simply the `lock` argument: it becomes
`enable && (lock || previous_locked)` — set when enabling with `lock`,
left unchanged when enabling without `lock`, and cleared when disabling. -/
theorem claim7_flags_stored (st : EngineState) (h : Nat) (e l : Bool) :
    lookupRec (set_passthrough_for_hwnd st h e l).1.windows h =
      some { (lookupRec st.windows h).getD (default_entry st h) with
             passthrough := e
             passthrough_locked :=
               e && (l || ((lookupRec st.windows h).getD
                 (default_entry st h)).passthrough_locked) } := by
  rw [spt_lookup_self]
  cases e <;> cases l <;> simp

/-- C8: the enumerator's two failure modes in the model: if the OS
enumeration call itself fails (`none`) the result is the empty list rather
than a propagated error, and a window on which the callback raises
contributes nothing while the remaining windows are still enumerated
exactly as without it. -/
theorem claim8_enum_failure_modes (xs ys : List OsWin) (w : OsWin)
    (hraise : w.procRaises = true) :
    enum_top_level_windows none = [] ∧
    enum_top_level_windows (some (xs ++ w :: ys)) =
      enum_top_level_windows (some (xs ++ ys)) := by
  refine ⟨rfl, ?_⟩
  simp [enum_top_level_windows, enumProcOne, hraise]

/-- Witness for C8 at concrete window lists. -/
theorem claim8_witness :
    enum_top_level_windows none = [] ∧
    enum_top_level_windows (some ([osWinA] ++ osWinBad :: [osWinA])) =
      enum_top_level_windows (some ([osWinA] ++ [osWinA])) :=
  claim8_enum_failure_modes [osWinA] [osWinA] osWinBad rfl

/-- C9 counterexample: at handle 0 `set_window_alpha` returns `False`
although the opacity-apply call was modelled as succeeding, and no record
exists for handle 0 afterwards — refuting both "returns false only if the
apply call fails" and "whenever it returns false a record exists". -/
theorem claim9_counterexample :
    (set_window_alpha st0 0 50 true true).2 = false ∧
    lookupRec (set_window_alpha st0 0 50 true true).1.windows 0 = none := by
  decide

/-- C9 (amended): for every nonzero handle, `set_window_alpha` returns false
exactly when the opacity-apply call fails, and in every case — success or
failure — a record for the handle exists afterwards with the attempted
(clamped) alpha stored, so the caller can retry or restore.  Handle 0, the
OS null-handle sentinel, is rejected up front with no record created. -/
theorem claim9_failed_apply_retains_record (st : EngineState) (h : Nat)
    (p : Int) (o1 o2 : Bool) (h0 : h ≠ 0) :
    (set_window_alpha st h p o1 o2).2 = o1 ∧
    ∃ r, lookupRec (set_window_alpha st h p o1 o2).1.windows h = some r ∧
      r.alpha = clampByte p :=
  ⟨swa_snd st h p o1 o2 h0, ⟨_, swa_lookup_self st h p o1 o2 h0, rfl⟩⟩

/-- Witness for C9: a failed apply (`slwaOk = false`) on window 1 returns
false yet leaves a record with the attempted alpha. -/
theorem claim9_witness :
    (set_window_alpha st0 1 40 false true).2 = false ∧
    ∃ r, lookupRec (set_window_alpha st0 1 40 false true).1.windows 1 = some r ∧
      r.alpha = clampByte 40 :=
  claim9_failed_apply_retains_record st0 1 40 false true (by decide)

/-- C10: the first operation touching an untracked handle creates its record
with the defaults `alpha = 255`, `passthrough = false`, `is_topmost = false`,
`passthrough_locked = false` (and `orig_ex` captured from the OS); hence when
`set_passthrough_for_hwnd` is the first operation ever applied to a window
and it changes the transparent bit (in either direction), the alpha it
reasserts after the style change is the fully opaque 255. -/
theorem claim10_first_touch_defaults (st : EngineState) (h : Nat)
    (hnone : lookupRec st.windows h = none) :
    lookupRec (ensureEntry st h).windows h =
      some { orig_ex := st.exStyle h, alpha := 255, passthrough := false
             is_topmost := false, passthrough_locked := false } ∧
    (st.exStyle h &&& WS_EX_TRANSPARENT = 0 →
      ∀ l, (set_passthrough_for_hwnd st h true l).1.osAlpha h = 255) ∧
    (st.exStyle h &&& WS_EX_TRANSPARENT ≠ 0 →
      ∀ l, (set_passthrough_for_hwnd st h false l).1.osAlpha h = 255) := by
  refine ⟨?_, ?_, ?_⟩
  · rw [ensureEntry_lookup, hnone]
    rfl
  · intro hb l
    rw [spt_osAlpha_enable_clear st h l hb, hnone]
    rfl
  · intro hb l
    rw [spt_osAlpha_disable_set st h l hb, hnone]
    rfl

/-- Witness for C10 on the untracked window 2 of the start state. -/
theorem claim10_witness :
    lookupRec (ensureEntry st0 2).windows 2 =
      some { orig_ex := st0.exStyle 2, alpha := 255, passthrough := false
             is_topmost := false, passthrough_locked := false } ∧
    (set_passthrough_for_hwnd st0 2 true false).1.osAlpha 2 = 255 := by
  have hfull := claim10_first_touch_defaults st0 2 (by decide)
  exact ⟨hfull.1, hfull.2.1 (by decide) false⟩

end TransparentWindows
